import Mathlib

/-!
Verification of the collaborative text-editing server (CollabServer).

Shallow embedding of the server core:
  - `src/server/doc.py`    : patch validator and replay (`apply_operation`,
    `apply_patch_dict`, `_coerce_length`) and the `DocState` data model;
  - `src/server/hub.py`    : the edit pipeline (`ServerHub._handle_edit`) and
    the SUBSCRIBE handler (`ServerHub._handle_subscribe`);
  - `src/server/persist.py`: recovery (`load_doc_content`, `_replay_oplog`);
  - `src/server/protocol.py`: the newline framer (`JsonLineFramer.feed`).

Python strings are modelled as `List Char` (a Python `str` is a sequence of
code points; slicing is `take`/`drop`).  Machine integers do not overflow in
Python, so `Int` is used directly.  JSON scalar values that can appear in a
message field are modelled by `JVal`; a missing dictionary key is `Option.none`
(Python `dict.get` defaults are inserted at each use site, mirroring the
source).  Wall-clock timestamps, sockets, the filesystem and thread scheduling
are outside the pure model; where a claim is about lock/step ordering the
handler is additionally modelled as a list of primitive steps in source order.
-/

/-- A JSON scalar value as it arrives in a parsed message field.
Arrays/objects never occur in the scalar fields the claims exercise
(`op`, `docId`, `base`, `pos`, `len`, `text`). -/
inductive JVal where
  | null
  | bool (b : Bool)
  | int (n : Int)
  | str (s : List Char)
deriving DecidableEq, Repr

/-- One decimal digit accumulator step of Python `int(str)` parsing. -/
def digits_to_nat : List Char → Nat → Option Nat
  | [], acc => some acc
  | c :: cs, acc =>
    if c.isDigit then digits_to_nat cs (10 * acc + (c.toNat - 48)) else none

/-- Python `str.strip` of ASCII whitespace on a char list. -/
def strip_chars (s : List Char) : List Char :=
  ((s.dropWhile Char.isWhitespace).reverse.dropWhile Char.isWhitespace).reverse

/-- Python `int(s)` on a string: optional surrounding whitespace, optional
sign, then at least one decimal digit; anything else raises `ValueError`. -/
def py_int_of_chars (s : List Char) : Option Int :=
  match strip_chars s with
  | [] => none
  | '+' :: ds => if ds = [] then none else (digits_to_nat ds 0).map Int.ofNat
  | '-' :: ds => if ds = [] then none else (digits_to_nat ds 0).map (fun n => -(n : Int))
  | ds => (digits_to_nat ds 0).map Int.ofNat

/-- Python `int(v)`: succeeds on ints, bools and numeric strings, raises
(`none`) on `None` and non-numeric strings. -/
def pyInt : JVal → Option Int
  | .int n => some n
  | .bool b => some (if b then 1 else 0)
  | .str s => py_int_of_chars s
  | .null => none

/-- Python `str(v)`. -/
def pyStr : JVal → List Char
  | .str s => s
  | .int n => (toString n).data
  | .bool b => if b then "True".data else "False".data
  | .null => "None".data

/-- Python `str.upper` (ASCII; the wire ops are ASCII). -/
def pyUpper (s : List Char) : List Char := s.map Char.toUpper

/-- Python truthiness for the `value or ""` idiom in `_normalize_doc_id`. -/
def py_falsy : JVal → Bool
  | .null => true
  | .bool b => !b
  | .int n => n = 0
  | .str s => s = []

/-- A client message: the fields `ServerHub` and `apply_operation` read.
`none` models an absent key. -/
structure Msg where
  op : Option JVal := none
  docId : Option JVal := none
  base : Option JVal := none
  pos : Option JVal := none
  len : Option JVal := none
  text : Option JVal := none
deriving DecidableEq, Repr

/-- `VALID_EDIT_OPS` from `doc.py`. -/
def VALID_EDIT_OPS : List (List Char) :=
  ["INSERT".data, "DELETE".data, "REPLACE".data]

/-- `str(message.get("op", "")).upper()`, shared by `apply_operation` and
`route_message`. -/
def msg_op (message : Msg) : List Char :=
  pyUpper (pyStr (message.op.getD (.str [])))

/-- The patch descriptor dictionaries built by `apply_operation`.  Each
constructor carries exactly the keys of the corresponding Python dict
(`type`/`pos`/`text`, `type`/`pos`/`len`, `type`/`pos`/`len`/`text`);
every such dict is non-empty. -/
inductive Patch where
  | INSERT (pos : Int) (text : List Char)
  | DELETE (pos : Int) (len : Int)
  | REPLACE (pos : Int) (len : Int) (text : List Char)
deriving DecidableEq, Repr

/-- `doc._coerce_length`: `None` and non-coercible values raise, negative
lengths raise; callers observe the raise as `Except.error`. -/
def coerce_length (value : Option JVal) : Except (List Char) Int :=
  match value with
  | none => .error "length missing".data
  | some v =>
    match pyInt v with
    | none => .error "int conversion failed".data
    | some length =>
      if length < 0 then .error "length negative".data else .ok length

/-- `doc.apply_operation(content, message)`: returns the Python 4-tuple
`(ok, content, patch, error_code)`. -/
def apply_operation (content : List Char) (message : Msg) :
    Bool × List Char × Option Patch × String :=
  let op := msg_op message
  if op ∉ VALID_EDIT_OPS then (false, content, none, "INVALID_OP")
  else
    match pyInt (message.pos.getD (.int 0)) with
    | none => (false, content, none, "INVALID_RANGE")
    | some pos =>
      if pos < 0 ∨ pos > (content.length : Int) then
        (false, content, none, "INVALID_RANGE")
      else if op = "INSERT".data then
        match message.text.getD (.str []) with
        | .str text =>
          (true, content.take pos.toNat ++ text ++ content.drop pos.toNat,
            some (.INSERT pos text), "")
        | _ => (false, content, none, "INVALID_PAYLOAD")
      else if op = "DELETE".data then
        match coerce_length message.len with
        | .error _ => (false, content, none, "INVALID_RANGE")
        | .ok length =>
          if pos + length > (content.length : Int) then
            (false, content, none, "INVALID_RANGE")
          else
            (true, content.take pos.toNat ++ content.drop (pos + length).toNat,
              some (.DELETE pos length), "")
      else
        match coerce_length message.len with
        | .error _ => (false, content, none, "INVALID_RANGE")
        | .ok length =>
          match message.text.getD (.str []) with
          | .str text =>
            if pos + length > (content.length : Int) then
              (false, content, none, "INVALID_RANGE")
            else
              (true,
                content.take pos.toNat ++ text ++ content.drop (pos + length).toNat,
                some (.REPLACE pos length text), "")
          | _ => (false, content, none, "INVALID_PAYLOAD")

/-- A persisted patch dictionary as read back from the oplog (the argument of
`apply_patch_dict`); `none` models an absent key.  JSON serialisation is the
identity on the ints and strings stored here. -/
structure PatchDict where
  ptype : Option JVal := none
  pos : Option JVal := none
  len : Option JVal := none
  text : Option JVal := none
deriving DecidableEq, Repr

/-- Serialising a `Patch` produced by `apply_operation` and parsing it back. -/
def Patch.toDict : Patch → PatchDict
  | .INSERT pos text =>
    { ptype := some (.str "INSERT".data), pos := some (.int pos),
      text := some (.str text) }
  | .DELETE pos len =>
    { ptype := some (.str "DELETE".data), pos := some (.int pos),
      len := some (.int len) }
  | .REPLACE pos len text =>
    { ptype := some (.str "REPLACE".data), pos := some (.int pos),
      len := some (.int len), text := some (.str text) }

/-- `doc.apply_patch_dict(content, patch)`: re-applies a logged patch;
every `raise` (including those propagating out of `int()` and
`_coerce_length`) is an `Except.error`. -/
def apply_patch_dict (content : List Char) (patch : PatchDict) :
    Except (List Char) (List Char) :=
  let ptype := pyUpper (pyStr (patch.ptype.getD (.str [])))
  match pyInt (patch.pos.getD (.int 0)) with
  | none => .error "int conversion failed".data
  | some pos =>
    if pos < 0 ∨ pos > (content.length : Int) then
      .error "patch position out of range".data
    else if ptype = "INSERT".data then
      match patch.text.getD (.str []) with
      | .str text => .ok (content.take pos.toNat ++ text ++ content.drop pos.toNat)
      | _ => .error "invalid insert payload".data
    else if ptype = "DELETE".data then
      match coerce_length patch.len with
      | .error e => .error e
      | .ok length =>
        if pos + length > (content.length : Int) then
          .error "delete length overflow".data
        else .ok (content.take pos.toNat ++ content.drop (pos + length).toNat)
    else if ptype = "REPLACE".data then
      match coerce_length patch.len with
      | .error e => .error e
      | .ok length =>
        match patch.text.getD (.str []) with
        | .str text =>
          if pos + length > (content.length : Int) then
            .error "replace length overflow".data
          else
            .ok (content.take pos.toNat ++ text ++ content.drop (pos + length).toNat)
        | _ => .error "invalid replace payload".data
    else .error "unsupported patch type".data

/-- `DocState` (doc.py): one document's in-memory state.  The subscribers set
is a duplicate-free list; `threading.Lock` has no pure content.  Dataclass
defaults: empty content, version 0, no subscribers. -/
structure DocState where
  id : List Char
  content : List Char := []
  version : Int := 0
  subscribers : List String := []
deriving DecidableEq, Repr

/-- Constructing a fresh `DocState(doc_id)` with the dataclass defaults. -/
def DocState.new (id : List Char) : DocState := { id := id }

/-- The `{docId, version, content}` dict built by `DocState.snapshot_payload`. -/
structure SnapshotPayload where
  docId : List Char
  version : Int
  content : List Char
deriving DecidableEq, Repr

def DocState.snapshot_payload (d : DocState) : SnapshotPayload :=
  ⟨d.id, d.version, d.content⟩

/-- The session fields the routed handlers read (hub.py `Session`). -/
structure Session where
  id : String
  hello_received : Bool
deriving DecidableEq, Repr

/-- One `append_oplog` call: `{docId, version, patch, by}` (the wall-clock
`ts` field is outside the pure model). -/
structure OplogEntry where
  docId : List Char
  version : Int
  patch : Patch
  author : String
deriving DecidableEq, Repr

/-- A server→client event as built by the hub (`send_error`, `_handle_edit`,
`_handle_subscribe`).  `errorEv` carries the `code` and the extra payload
pairs merged into the ERROR dict. -/
inductive Event where
  | errorEv (code : String) (extra : List (String × JVal))
  | docSnapshot (docId : List Char) (version : Int) (content : List Char)
  | appliedEv (docId : List Char) (version : Int) (patch : Patch) (author : String)
  | broadcastEv (docId : List Char) (version : Int) (patch : Patch) (author : String)
deriving DecidableEq, Repr

/-- `ServerHub._normalize_doc_id`: `str(value or "").strip()`, error when
empty. -/
def normalize_doc_id (value : JVal) : Except (List Char) (List Char) :=
  let v := if py_falsy value then JVal.str [] else value
  let s := strip_chars (pyStr v)
  if s = [] then .error "docId required".data else .ok s

/-- `int(message.get("base"))` with `except (TypeError, ValueError): -1`
(hub.py lines 193-196). -/
def coerce_base (message : Msg) : Int :=
  (pyInt (message.base.getD .null)).getD (-1)

/-- What `_handle_edit` computes inside `with doc.lock:` (hub.py 202-219):
the updated document, the oplog appends, and the three locals retained for
post-lock delivery (`error_meta`, `patch_result`, `current_version`).
The periodic `save_snapshot` call is a disk side effect with no effect on
the returned state and is not modelled. -/
structure EditLocked where
  doc : DocState
  oplog : List OplogEntry
  error_meta : Option (String × List (String × JVal))
  patch_result : Option Patch
  current_version : Option Int
deriving Repr

def edit_locked (doc : DocState) (message : Msg) (base_version : Int)
    (sid : String) : EditLocked :=
  if base_version ≠ doc.version then
    ⟨doc, [], some ("OUT_OF_DATE",
      [("docId", .str doc.id), ("serverVersion", .int doc.version)]), none, none⟩
  else
    match apply_operation doc.content message with
    | (_, _, none, err) =>
      ⟨doc, [], some ((if err = "" then "INVALID_PATCH" else err), []), none, none⟩
    | (ok, new_content, some patch, err) =>
      if ok = false then
        ⟨doc, [], some ((if err = "" then "INVALID_PATCH" else err), []), none, none⟩
      else
        let doc1 : DocState :=
          { doc with content := new_content, version := doc.version + 1 }
        ⟨doc1, [⟨doc.id, doc1.version, patch, sid⟩], none, some patch,
          some doc1.version⟩

/-- The outcome of one `_handle_edit` call: the document state afterwards,
the oplog records appended, and the events sent (author reply first, then
the broadcast payload handed to `_broadcast`). -/
structure EditResult where
  doc : DocState
  oplog : List OplogEntry
  events : List Event
deriving DecidableEq, Repr

/-- `ServerHub._handle_edit` (hub.py 183-239).  In the fallback guard the
Python test `not patch_result` is truthy only for `None` here because every
patch dict `apply_operation` builds is non-empty. -/
def handle_edit (session : Session) (doc : DocState) (message : Msg) :
    EditResult :=
  if session.hello_received = false then
    ⟨doc, [], [.errorEv "NOT_READY" [("hint", .str "send HELLO first".data)]]⟩
  else
    match normalize_doc_id (message.docId.getD .null) with
    | .error _ =>
      ⟨doc, [], [.errorEv "INVALID_DOC" [("hint", .str "docId required".data)]]⟩
    | .ok _ =>
      match edit_locked doc message (coerce_base message) session.id with
      | ⟨doc1, oplog1, error_meta, patch_result, current_version⟩ =>
        match error_meta with
        | some (code, extra) => ⟨doc1, oplog1, [.errorEv code extra]⟩
        | none =>
          match patch_result, current_version with
          | some patch, some ver =>
            ⟨doc1, oplog1,
              [.appliedEv doc1.id ver patch session.id,
               .broadcastEv doc1.id ver patch session.id]⟩
          | _, _ =>
            ⟨doc1, oplog1,
              [.errorEv "SERVER_ERROR" [("hint", .str "patch result missing".data)]]⟩

/-- The subscribers-set insertion `_handle_subscribe` performs under
`doc.lock` (hub.py 165-166); Python `set.add`. -/
def subscribe_insert (session : Session) (doc : DocState) : DocState :=
  { doc with subscribers :=
      if session.id ∈ doc.subscribers then doc.subscribers
      else session.id :: doc.subscribers }

/-- `ServerHub._handle_subscribe` (hub.py 155-170) as a state function:
insert the subscriber, then build the snapshot payload from the document. -/
def handle_subscribe (session : Session) (doc : DocState) (message : Msg) :
    DocState × List Event :=
  if session.hello_received = false then
    (doc, [.errorEv "NOT_READY" [("hint", .str "send HELLO first".data)]])
  else
    match normalize_doc_id (message.docId.getD .null) with
    | .error _ =>
      (doc, [.errorEv "INVALID_DOC" [("hint", .str "docId required".data)]])
    | .ok _ =>
      let doc1 := subscribe_insert session doc
      let snap := doc1.snapshot_payload
      (doc1, [.docSnapshot snap.docId snap.version snap.content])

/-- The subscriber IDs `_broadcast(doc, payload, exclude=sid)` sends to:
a snapshot of `doc.subscribers` minus the excluded author. -/
def broadcast_targets (doc : DocState) (exclude : String) : List String :=
  doc.subscribers.filter (fun sid => sid ≠ exclude)

/-- The primitive steps of `_handle_subscribe` in source order, for the
lock/ordering claim about the SUBSCRIBE handler. -/
inductive SubscribeStep where
  | checkHello
  | normalizeDocId
  | getDoc
  | lockAcquire
  | addSubscriber
  | lockRelease
  | recordSubscription
  | computeSnapshotPayload
  | sendSnapshot
deriving DecidableEq, Repr

/-- The straight-line success path of `_handle_subscribe` (hub.py 155-170),
one step per statement. -/
def handle_subscribe_steps : List SubscribeStep :=
  [.checkHello, .normalizeDocId, .getDoc, .lockAcquire, .addSubscriber,
   .lockRelease, .recordSubscription, .computeSnapshotPayload, .sendSnapshot]

/-- One parsed oplog JSON entry as `_replay_oplog` reads it: the coerced
`int(entry.get("version", 0))` (entries written by `append_oplog` always
carry an integer version) and the `patch` field, where `none` models a
missing or non-dict value (the `isinstance(patch, dict)` guard). -/
structure OplogEntryRead where
  version : Int
  patch : Option PatchDict
deriving DecidableEq, Repr

/-- One physical line of a `<docId>.logl` file after `line.strip()` and
`json.loads`: blank, undecodable JSON, or a decoded entry. -/
inductive OplogLine where
  | blank
  | badJson
  | entry (e : OplogEntryRead)
deriving DecidableEq, Repr

/-- The per-line loop body of `persist._replay_oplog` (persist.py 91-111). -/
def replay_go : List OplogLine → List Char → Int → List Char × Int
  | [], content, version => (content, version)
  | .blank :: rest, content, version => replay_go rest content version
  | .badJson :: rest, content, version => replay_go rest content version
  | .entry e :: rest, content, version =>
    if e.version ≤ version then replay_go rest content version
    else
      match e.patch with
      | none => replay_go rest content version
      | some p =>
        match apply_patch_dict content p with
        | .error _ => (content, version)
        | .ok content1 => replay_go rest content1 e.version

/-- `persist._replay_oplog(doc_id, base_content, base_version, oplog_dir)`;
`none` is a missing `<docId>.logl` file. -/
def replay_oplog (base_content : List Char) (base_version : Int)
    (oplog : Option (List OplogLine)) : List Char × Int :=
  match oplog with
  | none => (base_content, base_version)
  | some lines => replay_go lines base_content base_version

/-- `persist.load_doc_content`: `_read_snapshot` yields `("", 0)` when the
snapshot file is missing or fails to parse (`snapshot = none`), else the
snapshot's `(content, version)`; then the oplog is replayed on top. -/
def load_doc_content (snapshot : Option (List Char × Int))
    (oplog : Option (List OplogLine)) : List Char × Int :=
  let base := snapshot.getD ([], 0)
  replay_oplog base.1 base.2 oplog

/-- Modelled from the spec (amended recovery wording), for comparison with
`replay_oplog`: a left fold that skips blanks, bad JSON, stale entries and
entries whose patch is not an object, applies newer patches, and freezes the
state at the first patch-application failure (third component = stopped). -/
def replay_spec_step (st : List Char × Int × Bool) (line : OplogLine) :
    List Char × Int × Bool :=
  if st.2.2 then st
  else
    match line with
    | .blank => st
    | .badJson => st
    | .entry e =>
      if e.version ≤ st.2.1 then st
      else
        match e.patch with
        | none => st
        | some p =>
          match apply_patch_dict st.1 p with
          | .ok c1 => (c1, e.version, false)
          | .error _ => (st.1, st.2.1, true)

/-- Modelled from the spec: recovery described by the amended claim wording
as a fold of `replay_spec_step` over the oplog lines. -/
def replay_spec (base_content : List Char) (base_version : Int)
    (oplog : Option (List OplogLine)) : List Char × Int :=
  match oplog with
  | none => (base_content, base_version)
  | some lines =>
    let r := lines.foldl replay_spec_step (base_content, base_version, false)
    (r.1, r.2.1)

/-- Modelled from the spec: the claim's recovery wording taken literally —
every entry with `entry.version > version` has its patch applied (a patch
that is not a JSON object cannot be applied, which is a patch-application
failure), and the first patch-application failure stops replay. -/
def claim_replay_literal_go : List OplogLine → List Char → Int → List Char × Int
  | [], content, version => (content, version)
  | .blank :: rest, content, version => claim_replay_literal_go rest content version
  | .badJson :: rest, content, version => claim_replay_literal_go rest content version
  | .entry e :: rest, content, version =>
    if e.version ≤ version then claim_replay_literal_go rest content version
    else
      match e.patch with
      | none => (content, version)
      | some p =>
        match apply_patch_dict content p with
        | .error _ => (content, version)
        | .ok content1 => claim_replay_literal_go rest content1 e.version

/-- Modelled from the spec: literal-claim recovery from a snapshot. -/
def claim_replay_literal (snapshot : Option (List Char × Int))
    (oplog : Option (List OplogLine)) : List Char × Int :=
  let base := snapshot.getD ([], 0)
  match oplog with
  | none => base
  | some lines => claim_replay_literal_go lines base.1 base.2

/-- `protocol.MAX_MESSAGE_BYTES`. -/
def MAX_MESSAGE_BYTES : Nat := 1000000

/-- ASCII whitespace bytes for Python `bytes.strip()`. -/
def is_space_byte (b : Nat) : Bool :=
  b = 9 ∨ b = 10 ∨ b = 11 ∨ b = 12 ∨ b = 13 ∨ b = 32

/-- Python `bytes.strip()` on a byte list. -/
def bstrip (l : List Nat) : List Nat :=
  ((l.dropWhile is_space_byte).reverse.dropWhile is_space_byte).reverse

/-- `buffer.find(b"\n")` plus the prefix/suffix split: `some (line, rest)`
when the buffer contains a newline (byte 10). -/
def splitAtNl : List Nat → Option (List Nat × List Nat)
  | [] => none
  | b :: bs =>
    if b = 10 then some ([], bs)
    else (splitAtNl bs).map (fun p => (b :: p.1, p.2))

theorem splitAtNl_some_length {buf line rest : List Nat}
    (h : splitAtNl buf = some (line, rest)) : rest.length < buf.length := by
  induction buf generalizing line rest with
  | nil => simp [splitAtNl] at h
  | cons b bs ih =>
    simp only [splitAtNl] at h
    by_cases hb : b = 10
    · rw [if_pos hb] at h
      simp only [Option.some.injEq, Prod.mk.injEq] at h
      obtain ⟨h1, h2⟩ := h
      subst h2
      exact Nat.lt_succ_self bs.length
    · rw [if_neg hb] at h
      cases h0 : splitAtNl bs with
      | none => rw [h0] at h; simp at h
      | some p =>
        rw [h0] at h
        obtain ⟨l0, r0⟩ := p
        simp only [Option.map, Option.some.injEq, Prod.mk.injEq] at h
        obtain ⟨h1, h2⟩ := h
        subst h2
        have := ih h0
        exact Nat.lt_trans this (Nat.lt_succ_self bs.length)

/-- The `while True` line-extraction loop of `JsonLineFramer.feed`
(protocol.py 31-42): each complete line is stripped and, when non-empty,
emitted (the source then parses it with `parse_json_line`; the emitted raw
line determines that record).  Returns the emitted lines and the remaining
buffer. -/
def extractLines (buf : List Nat) : List (List Nat) × List Nat :=
  match h : splitAtNl buf with
  | none => ([], buf)
  | some (line, rest) =>
    let p := extractLines rest
    let s := bstrip line
    (if s = [] then p.1 else s :: p.1, p.2)
termination_by buf.length
decreasing_by exact splitAtNl_some_length h

/-- `JsonLineFramer.feed(chunk)` on an explicit buffer: returns the emitted
records and the new buffer, or the oversize `ProtocolError`. -/
def framer_feed (buffer chunk : List Nat) :
    Except String (List (List Nat) × List Nat) :=
  if chunk = [] then .ok ([], buffer)
  else
    let buf := buffer ++ chunk
    if buf.length > MAX_MESSAGE_BYTES then .error "message exceeds max size"
    else .ok (extractLines buf)

/-- The bytes after the last newline of a buffer (the spec's "unterminated
tail"). -/
def after_last_nl (buf : List Nat) : List Nat :=
  (buf.reverse.takeWhile (fun b => b ≠ 10)).reverse

/-- Python `isinstance(v, str)` on a message field value. -/
def is_js_string : JVal → Bool
  | .str _ => true
  | _ => false

/-- `{op:"INSERT", pos, text}` as a message (docId/base handled upstream). -/
def insert_msg (pos : Int) (text : List Char) : Msg :=
  { op := some (.str "INSERT".data), pos := some (.int pos),
    text := some (.str text) }

/-- `{op:"DELETE", pos, len}` as a message. -/
def delete_msg (pos : Int) (length : Int) : Msg :=
  { op := some (.str "DELETE".data), pos := some (.int pos),
    len := some (.int length) }

/-- `{op:"REPLACE", pos, len, text}` as a message. -/
def replace_msg (pos : Int) (length : Int) (text : List Char) : Msg :=
  { op := some (.str "REPLACE".data), pos := some (.int pos),
    len := some (.int length), text := some (.str text) }

/-! ## Concrete inputs used by witnesses and counterexamples -/

/-- `{"op":"DELETE","docId":"main","base":1,"pos":0,"len":1}`. -/
def wmsg_delete_stale : Msg :=
  { op := some (.str "DELETE".data), docId := some (.str "main".data),
    base := some (.int 1), pos := some (.int 0), len := some (.int 1) }

/-- A document `main` at version 2 with content `"hi"` and one subscriber. -/
def wdoc_v2 : DocState :=
  { id := "main".data, content := "hi".data, version := 2,
    subscribers := ["S-B"] }

/-- `{"op":"INSERT","docId":"main","base":0,"pos":0,"text":"hi"}`. -/
def wmsg_insert_hi : Msg :=
  { op := some (.str "INSERT".data), docId := some (.str "main".data),
    base := some (.int 0), pos := some (.int 0),
    text := some (.str "hi".data) }

/-- A REPLACE whose `pos+len` overflows the (empty) content while its `text`
is not a string (`null`); `pos` is absent and defaults to 0. -/
def cmsg_replace_badtext : Msg :=
  { op := some (.str "REPLACE".data), len := some (.int 1),
    text := some .null }

/-- An INSERT with no `pos` key at all. -/
def cmsg_insert_no_pos : Msg :=
  { op := some (.str "INSERT".data), text := some (.str ['X']) }

/-- An INSERT whose `base` is the non-numeric string `"x"`. -/
def wmsg_insert_badbase : Msg :=
  { op := some (.str "INSERT".data), docId := some (.str "main".data),
    base := some (.str ['x']), pos := some (.int 0),
    text := some (.str ['h']) }

/-- An oplog entry at version 1 whose `patch` field is not a JSON object. -/
def cline_nondict : OplogLine := .entry ⟨1, none⟩

/-- An oplog entry at version 2 inserting `"a"` at 0. -/
def cline_insert_a : OplogLine :=
  .entry ⟨2, some { ptype := some (.str "INSERT".data), pos := some (.int 0),
                    text := some (.str ['a']) }⟩

/-- SUBSCRIBE/edit interleaving on a fresh document: session `S-B`'s
subscriber insertion has happened (the first half of `_handle_subscribe`,
done under `doc.lock`) but its snapshot payload has not been computed yet. -/
def race_doc1 : DocState := subscribe_insert ⟨"S-B", true⟩ (DocState.new "main".data)

/-- A concurrent edit by `S-A` that commits version 1 while `S-B`'s
SUBSCRIBE is between its two halves. -/
def race_edit : EditResult := handle_edit ⟨"S-A", true⟩ race_doc1 wmsg_insert_hi

/-- The snapshot payload `S-B`'s SUBSCRIBE computes afterwards (outside the
lock, from the already-edited document). -/
def race_snapshot : SnapshotPayload := race_edit.doc.snapshot_payload

/-! ## Helper lemmas about the edit pipeline -/

/-- The locked section either records an error and leaves everything
untouched, or commits one edit: content replaced, version bumped by one,
one oplog entry, patch and version retained. -/
theorem edit_locked_shape (doc : DocState) (message : Msg) (b : Int)
    (sid : String) :
    (∃ code extra, edit_locked doc message b sid =
        ⟨doc, [], some (code, extra), none, none⟩ ∧
      (extra = [] ∨
        extra = [("docId", JVal.str doc.id),
                 ("serverVersion", JVal.int doc.version)])) ∨
    (∃ c1 p, edit_locked doc message b sid =
        ⟨{ doc with content := c1, version := doc.version + 1 },
          [⟨doc.id, doc.version + 1, p, sid⟩], none, some p,
          some (doc.version + 1)⟩) := by
  unfold edit_locked
  repeat' split
  all_goals
    first
      | (left; exact ⟨_, _, rfl, Or.inr rfl⟩)
      | (left; exact ⟨_, _, rfl, Or.inl rfl⟩)
      | (right; exact ⟨_, _, rfl⟩)

theorem coerce_length_ok_nonneg {x : Option JVal} {n : Int}
    (h : coerce_length x = .ok n) : 0 ≤ n := by
  unfold coerce_length at h
  split at h
  · exact absurd h (by simp)
  · split at h
    · exact absurd h (by simp)
    · split at h
      · exact absurd h (by simp)
      · next hneg =>
        rw [Except.ok.injEq] at h
        omega

theorem upper_insert :
    pyUpper (pyStr (JVal.str ['I', 'N', 'S', 'E', 'R', 'T'])) =
      ['I', 'N', 'S', 'E', 'R', 'T'] := by decide

theorem upper_delete :
    pyUpper (pyStr (JVal.str ['D', 'E', 'L', 'E', 'T', 'E'])) =
      ['D', 'E', 'L', 'E', 'T', 'E'] := by decide

theorem upper_replace :
    pyUpper (pyStr (JVal.str ['R', 'E', 'P', 'L', 'A', 'C', 'E'])) =
      ['R', 'E', 'P', 'L', 'A', 'C', 'E'] := by decide

/-! ## Claim theorems -/

/-- C1: an edit from a HELLOed session with a valid docId whose coerced base
version differs from the document version is rejected with an
`OUT_OF_DATE` error carrying `{docId, serverVersion}`; the document
(content, version, subscribers) is unchanged and nothing is appended to the
oplog. -/
theorem handle_edit_out_of_date (session : Session) (doc : DocState)
    (message : Msg)
    (hhello : session.hello_received = true)
    (hdoc : normalize_doc_id (message.docId.getD .null) = .ok doc.id)
    (hop : msg_op message ∈ VALID_EDIT_OPS)
    (hbase : coerce_base message ≠ doc.version) :
    handle_edit session doc message =
      ⟨doc, [], [.errorEv "OUT_OF_DATE"
        [("docId", .str doc.id), ("serverVersion", .int doc.version)]]⟩ := by
  simp [handle_edit, edit_locked, hhello, hdoc, hbase]

/-- Concrete instance for `handle_edit_out_of_date`: a DELETE at base 1
against version 2. -/
theorem handle_edit_out_of_date_witness :
    coerce_base wmsg_delete_stale ≠ (2 : Int) ∧
    handle_edit ⟨"S-B", true⟩ wdoc_v2 wmsg_delete_stale =
      ⟨wdoc_v2, [],
        [.errorEv "OUT_OF_DATE"
          [("docId", .str "main".data), ("serverVersion", .int 2)]]⟩ :=
  ⟨by decide,
    handle_edit_out_of_date _ _ _ (by rfl) (by rfl) (by decide) (by decide)⟩

/-- C2: an accepted edit (coerced base equals the version and the validator
succeeds) bumps the version by exactly 1, and both the oplog entry and the
APPLIED event carry the new version; moreover versions never decrease under
the edit and subscribe operations, and a fresh `DocState` starts at
version 0. -/
theorem handle_edit_version_increment (session : Session) (doc : DocState)
    (message : Msg) (c1 : List Char) (p : Patch) (e : String)
    (hhello : session.hello_received = true)
    (hdoc : normalize_doc_id (message.docId.getD .null) = .ok doc.id)
    (hbase : coerce_base message = doc.version)
    (happly : apply_operation doc.content message = (true, c1, some p, e)) :
    handle_edit session doc message =
      ⟨{ doc with content := c1, version := doc.version + 1 },
        [⟨doc.id, doc.version + 1, p, session.id⟩],
        [.appliedEv doc.id (doc.version + 1) p session.id,
         .broadcastEv doc.id (doc.version + 1) p session.id]⟩ ∧
    (∀ (s : Session) (d : DocState) (m : Msg),
      d.version ≤ (handle_edit s d m).doc.version) ∧
    (∀ (s : Session) (d : DocState) (m : Msg),
      (handle_subscribe s d m).1.version = d.version) ∧
    (∀ id, (DocState.new id).version = 0) := by
  refine ⟨?_, ?_, ?_, ?_⟩
  · simp [handle_edit, edit_locked, hhello, hdoc, hbase, happly]
  · intro s d m
    unfold handle_edit
    split
    · simp
    · split
      · simp
      · rcases edit_locked_shape d m (coerce_base m) s.id with
          ⟨code, extra, heq, hex⟩ | ⟨c1, p2, heq⟩ <;> rw [heq] <;> simp
  · intro s d m
    unfold handle_subscribe
    repeat' split <;> simp [subscribe_insert]
  · intro id
    rfl

/-- Concrete instance for `handle_edit_version_increment`: the first INSERT
on an empty document. -/
theorem handle_edit_version_increment_witness :
    apply_operation [] wmsg_insert_hi =
      (true, "hi".data, some (.INSERT 0 "hi".data), "") ∧
    handle_edit ⟨"S-A", true⟩ (DocState.new "main".data) wmsg_insert_hi =
      ⟨{ id := "main".data, content := "hi".data, version := 1,
         subscribers := [] },
        [⟨"main".data, 1, .INSERT 0 "hi".data, "S-A"⟩],
        [.appliedEv "main".data 1 (.INSERT 0 "hi".data) "S-A",
         .broadcastEv "main".data 1 (.INSERT 0 "hi".data) "S-A"]⟩ :=
  ⟨by decide,
    (handle_edit_version_increment ⟨"S-A", true⟩ (DocState.new "main".data) _
      "hi".data (.INSERT 0 "hi".data) "" (by rfl) (by rfl) (by decide)
      (by decide)).1⟩

/-- C10: whenever the locked section of the edit pipeline records no error,
it has set both the retained patch and the post-apply version, so the
post-lock `SERVER_ERROR {hint: patch result missing}` fallback can never
fire. -/
theorem handle_edit_no_server_error_fallback (s : Session) (d : DocState)
    (m : Msg) :
    Event.errorEv "SERVER_ERROR" [("hint", .str "patch result missing".data)]
      ∉ (handle_edit s d m).events := by
  unfold handle_edit
  split
  · simp
  · split
    · simp
    · rcases edit_locked_shape d m (coerce_base m) s.id with
        ⟨code, extra, heq, hex⟩ | ⟨c1, p2, heq⟩
      · rw [heq]
        simp only [List.mem_singleton]
        intro hEq
        injection hEq with h1 h2
        rcases hex with h3 | h3 <;> subst h3 <;> simp at h2
      · rw [heq]
        simp

/-- C4: every patch descriptor emitted by a successful `apply_operation`,
when serialised and re-applied through the persistence replay function
`apply_patch_dict`, reproduces exactly the in-memory result. -/
theorem apply_patch_dict_replays (C : List Char) (message : Msg)
    (c1 : List Char) (p : Patch) (e : String)
    (h : apply_operation C message = (true, c1, some p, e)) :
    apply_patch_dict C p.toDict = .ok c1 := by
  simp only [apply_operation] at h
  split at h
  · exact absurd h (by simp)
  · split at h
    · exact absurd h (by simp)
    · next pos hpos =>
      split at h
      · exact absurd h (by simp)
      · next hrange =>
        split at h
        · -- INSERT
          next hop =>
            split at h
            · next text htext =>
              simp only [Prod.mk.injEq] at h
              obtain ⟨-, hc, hp, -⟩ := h
              rw [Option.some.injEq] at hp
              subst hp
              subst hc
              simp [apply_patch_dict, Patch.toDict, upper_insert, pyInt, hrange]
            · exact absurd h (by simp)
        · split at h
          · -- DELETE
            next hop =>
              split at h
              · exact absurd h (by simp)
              · next length hlen =>
                split at h
                · exact absurd h (by simp)
                · next hplrange =>
                  simp only [Prod.mk.injEq] at h
                  obtain ⟨-, hc, hp, -⟩ := h
                  rw [Option.some.injEq] at hp
                  subst hp
                  subst hc
                  have hnn := coerce_length_ok_nonneg hlen
                  simp [apply_patch_dict, Patch.toDict, upper_delete, pyInt,
                    hrange, hplrange, coerce_length, not_lt.mpr hnn]
          · -- REPLACE
            split at h
            · exact absurd h (by simp)
            · next length hlen =>
              split at h
              · next text htext =>
                split at h
                · exact absurd h (by simp)
                · next hplrange =>
                  simp only [Prod.mk.injEq] at h
                  obtain ⟨-, hc, hp, -⟩ := h
                  rw [Option.some.injEq] at hp
                  subst hp
                  subst hc
                  have hnn := coerce_length_ok_nonneg hlen
                  simp [apply_patch_dict, Patch.toDict, upper_replace, pyInt,
                    hrange, hplrange, coerce_length, not_lt.mpr hnn]
              · exact absurd h (by simp)

/-- Concrete instance for `apply_patch_dict_replays`: replaying the logged
REPLACE patch reproduces the in-memory result. -/
theorem apply_patch_dict_replays_witness :
    apply_operation "hi".data
      { op := some (.str "REPLACE".data), docId := some (.str "main".data),
        base := some (.int 1), pos := some (.int 0), len := some (.int 2),
        text := some (.str "HI".data) } =
      (true, "HI".data, some (.REPLACE 0 2 "HI".data), "") ∧
    apply_patch_dict "hi".data (Patch.REPLACE 0 2 "HI".data).toDict =
      .ok "HI".data :=
  ⟨by decide,
    apply_patch_dict_replays "hi".data
      { op := some (.str "REPLACE".data), docId := some (.str "main".data),
        base := some (.int 1), pos := some (.int 0), len := some (.int 2),
        text := some (.str "HI".data) }
      "HI".data (.REPLACE 0 2 "HI".data) "" (by decide)⟩

theorem apply_operation_insert_eval (C : List Char) (pos : Int) (t : List Char)
    (h0 : 0 ≤ pos) (h1 : pos ≤ (C.length : Int)) :
    apply_operation C (insert_msg pos t) =
      (true, C.take pos.toNat ++ t ++ C.drop pos.toNat,
        some (.INSERT pos t), "") := by
  simp only [apply_operation]
  rw [show msg_op (insert_msg pos t) = ['I', 'N', 'S', 'E', 'R', 'T'] from rfl]
  rw [if_neg (show ¬((['I', 'N', 'S', 'E', 'R', 'T'] : List Char) ∉ VALID_EDIT_OPS)
    from by decide)]
  rw [show pyInt ((insert_msg pos t).pos.getD (.int 0)) = some pos from rfl]
  rw [show ((insert_msg pos t).text.getD (.str [])) = .str t from rfl]
  dsimp only
  rw [if_neg (show ¬(pos < 0 ∨ pos > (C.length : Int)) from by omega)]
  rw [if_pos (show ((['I', 'N', 'S', 'E', 'R', 'T'] : List Char) =
    ['I', 'N', 'S', 'E', 'R', 'T']) from rfl)]

theorem apply_operation_delete_eval (C : List Char) (pos length : Int)
    (h0 : 0 ≤ pos) (h2 : 0 ≤ length) (h3 : pos + length ≤ (C.length : Int)) :
    apply_operation C (delete_msg pos length) =
      (true, C.take pos.toNat ++ C.drop (pos + length).toNat,
        some (.DELETE pos length), "") := by
  simp only [apply_operation]
  rw [show msg_op (delete_msg pos length) = ['D', 'E', 'L', 'E', 'T', 'E'] from rfl]
  rw [if_neg (show ¬((['D', 'E', 'L', 'E', 'T', 'E'] : List Char) ∉ VALID_EDIT_OPS)
    from by decide)]
  rw [show pyInt ((delete_msg pos length).pos.getD (.int 0)) = some pos from rfl]
  rw [show coerce_length (delete_msg pos length).len = .ok length from by
    simp [delete_msg, coerce_length, pyInt, show ¬length < 0 from by omega]]
  dsimp only
  rw [if_neg (show ¬(pos < 0 ∨ pos > (C.length : Int)) from by omega)]
  rw [if_neg (show ¬((['D', 'E', 'L', 'E', 'T', 'E'] : List Char) =
    ['I', 'N', 'S', 'E', 'R', 'T']) from by decide)]
  rw [if_pos (show ((['D', 'E', 'L', 'E', 'T', 'E'] : List Char) =
    ['D', 'E', 'L', 'E', 'T', 'E']) from rfl)]
  rw [if_neg (show ¬(pos + length > (C.length : Int)) from by omega)]

/-- C7: inserting `t` at position `pos` and then deleting `|t|` characters at
the same position restores the original content, through `apply_operation`
itself. -/
theorem insert_then_delete_roundtrip (C t : List Char) (pos : Int)
    (h0 : 0 ≤ pos) (h1 : pos ≤ (C.length : Int)) :
    apply_operation C (insert_msg pos t) =
      (true, C.take pos.toNat ++ t ++ C.drop pos.toNat,
        some (.INSERT pos t), "") ∧
    apply_operation (C.take pos.toNat ++ t ++ C.drop pos.toNat)
      (delete_msg pos (t.length : Int)) =
      (true, C, some (.DELETE pos (t.length : Int)), "") := by
  have hp : ((pos.toNat : Int)) = pos := Int.toNat_of_nonneg h0
  have hple : pos.toNat ≤ C.length := by omega
  have hlen : ((C.take pos.toNat ++ t ++ C.drop pos.toNat).length : Int) =
      (C.length : Int) + t.length := by
    simp [List.length_append, List.length_take, List.length_drop]
    omega
  refine ⟨apply_operation_insert_eval C pos t h0 h1, ?_⟩
  rw [apply_operation_delete_eval _ pos t.length h0 (by omega) (by omega)]
  have htn : (pos + (t.length : Int)).toNat = pos.toNat + t.length := by omega
  rw [htn]
  have hassoc : C.take pos.toNat ++ t ++ C.drop pos.toNat =
      C.take pos.toNat ++ (t ++ C.drop pos.toNat) := by
    rw [List.append_assoc]
  have htake : (C.take pos.toNat ++ t ++ C.drop pos.toNat).take pos.toNat =
      C.take pos.toNat := by
    rw [hassoc]
    exact List.take_left' (by simp [List.length_take]; omega)
  have hdrop : (C.take pos.toNat ++ t ++ C.drop pos.toNat).drop
      (pos.toNat + t.length) = C.drop pos.toNat :=
    List.drop_left' (by simp [List.length_append, List.length_take]; omega)
  rw [htake, hdrop, List.take_append_drop]

/-- Concrete instance for `insert_then_delete_roundtrip`: insert `"XY"` at 1
in `"ab"`, then delete 2 at 1, recovering `"ab"`. -/
theorem insert_then_delete_roundtrip_witness :
    apply_operation "ab".data (insert_msg 1 "XY".data) =
      (true, "aXYb".data, some (.INSERT 1 "XY".data), "") ∧
    apply_operation "aXYb".data (delete_msg 1 2) =
      (true, "ab".data, some (.DELETE 1 2), "") :=
  insert_then_delete_roundtrip "ab".data "XY".data 1 (by decide) (by decide)

theorem apply_operation_replace_eval (C : List Char) (pos length : Int)
    (t : List Char) (h0 : 0 ≤ pos) (h2 : 0 ≤ length)
    (h3 : pos + length ≤ (C.length : Int)) :
    apply_operation C (replace_msg pos length t) =
      (true, C.take pos.toNat ++ t ++ C.drop (pos + length).toNat,
        some (.REPLACE pos length t), "") := by
  simp only [apply_operation]
  rw [show msg_op (replace_msg pos length t) = ['R', 'E', 'P', 'L', 'A', 'C', 'E']
    from rfl]
  rw [if_neg (show ¬((['R', 'E', 'P', 'L', 'A', 'C', 'E'] : List Char)
    ∉ VALID_EDIT_OPS) from by decide)]
  rw [show pyInt ((replace_msg pos length t).pos.getD (.int 0)) = some pos
    from rfl]
  rw [show coerce_length (replace_msg pos length t).len = .ok length from by
    simp [replace_msg, coerce_length, pyInt, show ¬length < 0 from by omega]]
  rw [show ((replace_msg pos length t).text.getD (.str [])) = .str t from rfl]
  dsimp only
  rw [if_neg (show ¬(pos < 0 ∨ pos > (C.length : Int)) from by omega)]
  rw [if_neg (show ¬((['R', 'E', 'P', 'L', 'A', 'C', 'E'] : List Char) =
    ['I', 'N', 'S', 'E', 'R', 'T']) from by decide)]
  rw [if_neg (show ¬((['R', 'E', 'P', 'L', 'A', 'C', 'E'] : List Char) =
    ['D', 'E', 'L', 'E', 'T', 'E']) from by decide)]
  rw [if_neg (show ¬(pos + length > (C.length : Int)) from by omega)]

theorem apply_operation_fail_content (C : List Char) (m : Msg)
    (h : (apply_operation C m).1 = false) : (apply_operation C m).2.1 = C := by
  unfold apply_operation at h ⊢
  repeat' split <;> simp_all

theorem apply_operation_pos_none (C : List Char) (m : Msg)
    (h1 : msg_op m ∈ VALID_EDIT_OPS)
    (h2 : pyInt (m.pos.getD (.int 0)) = none) :
    apply_operation C m = (false, C, none, "INVALID_RANGE") := by
  simp only [apply_operation]
  rw [if_neg (not_not_intro h1), h2]

theorem apply_operation_len_error (C : List Char) (m : Msg) (pos : Int)
    (e2 : List Char)
    (hop : msg_op m = "DELETE".data ∨ msg_op m = "REPLACE".data)
    (h2 : pyInt (m.pos.getD (.int 0)) = some pos)
    (h3 : ¬(pos < 0 ∨ pos > (C.length : Int)))
    (h4 : coerce_length m.len = .error e2) :
    apply_operation C m = (false, C, none, "INVALID_RANGE") := by
  rcases hop with hop | hop <;>
  · simp only [apply_operation]
    rw [hop]
    rw [if_neg (by decide), h2]
    dsimp only
    rw [if_neg h3]
    rw [if_neg (by decide)]
    first
      | (rw [if_pos rfl, h4])
      | (rw [if_neg (by decide), h4])

/-- C3 (amended): classification of `apply_operation` outcomes.  An op
outside INSERT/DELETE/REPLACE is `INVALID_OP`; a `pos` that fails integer
coercion or lies outside `[0, |C|]` is `INVALID_RANGE`; for DELETE/REPLACE a
`len` that is missing, negative or non-coercible is `INVALID_RANGE`, and a
range overflow `pos+len > |C|` is `INVALID_RANGE` (for REPLACE: provided
`text` is a string, since the source checks the payload first); a non-string
`text` is `INVALID_PAYLOAD` for INSERT, and for REPLACE once `len` has
coerced; the boundary cases `pos = 0`, `pos = |C|`, `len = 0`,
`len = |C| - pos` succeed when otherwise valid; and every failure returns
the input content unchanged. -/
theorem apply_operation_error_classification :
    (∀ (C : List Char) (m : Msg), msg_op m ∉ VALID_EDIT_OPS →
      apply_operation C m = (false, C, none, "INVALID_OP")) ∧
    (∀ (C : List Char) (m : Msg), msg_op m ∈ VALID_EDIT_OPS →
      pyInt (m.pos.getD (.int 0)) = none →
      apply_operation C m = (false, C, none, "INVALID_RANGE")) ∧
    (∀ (C : List Char) (m : Msg) (pos : Int), msg_op m ∈ VALID_EDIT_OPS →
      pyInt (m.pos.getD (.int 0)) = some pos →
      (pos < 0 ∨ pos > (C.length : Int)) →
      apply_operation C m = (false, C, none, "INVALID_RANGE")) ∧
    (∀ (C : List Char) (m : Msg) (pos : Int) (e2 : List Char),
      (msg_op m = "DELETE".data ∨ msg_op m = "REPLACE".data) →
      pyInt (m.pos.getD (.int 0)) = some pos →
      ¬(pos < 0 ∨ pos > (C.length : Int)) →
      coerce_length m.len = .error e2 →
      apply_operation C m = (false, C, none, "INVALID_RANGE")) ∧
    (∀ (C : List Char) (m : Msg) (pos length : Int),
      msg_op m = "DELETE".data →
      pyInt (m.pos.getD (.int 0)) = some pos →
      ¬(pos < 0 ∨ pos > (C.length : Int)) →
      coerce_length m.len = .ok length →
      pos + length > (C.length : Int) →
      apply_operation C m = (false, C, none, "INVALID_RANGE")) ∧
    (∀ (C : List Char) (m : Msg) (pos length : Int) (t : List Char),
      msg_op m = "REPLACE".data →
      pyInt (m.pos.getD (.int 0)) = some pos →
      ¬(pos < 0 ∨ pos > (C.length : Int)) →
      coerce_length m.len = .ok length →
      m.text.getD (.str []) = .str t →
      pos + length > (C.length : Int) →
      apply_operation C m = (false, C, none, "INVALID_RANGE")) ∧
    (∀ (C : List Char) (m : Msg) (pos : Int),
      msg_op m = "INSERT".data →
      pyInt (m.pos.getD (.int 0)) = some pos →
      ¬(pos < 0 ∨ pos > (C.length : Int)) →
      is_js_string (m.text.getD (.str [])) = false →
      apply_operation C m = (false, C, none, "INVALID_PAYLOAD")) ∧
    (∀ (C : List Char) (m : Msg) (pos length : Int),
      msg_op m = "REPLACE".data →
      pyInt (m.pos.getD (.int 0)) = some pos →
      ¬(pos < 0 ∨ pos > (C.length : Int)) →
      coerce_length m.len = .ok length →
      is_js_string (m.text.getD (.str [])) = false →
      apply_operation C m = (false, C, none, "INVALID_PAYLOAD")) ∧
    (∀ (C : List Char) (pos : Int) (t : List Char), 0 ≤ pos →
      pos ≤ (C.length : Int) →
      (apply_operation C (insert_msg pos t)).1 = true) ∧
    (∀ (C : List Char) (pos length : Int), 0 ≤ pos → 0 ≤ length →
      pos + length ≤ (C.length : Int) →
      (apply_operation C (delete_msg pos length)).1 = true) ∧
    (∀ (C : List Char) (pos length : Int) (t : List Char), 0 ≤ pos →
      0 ≤ length → pos + length ≤ (C.length : Int) →
      (apply_operation C (replace_msg pos length t)).1 = true) ∧
    (∀ (C : List Char) (m : Msg), (apply_operation C m).1 = false →
      (apply_operation C m).2.1 = C) := by
  refine ⟨?_, ?_, ?_, ?_, ?_, ?_, ?_, ?_, ?_, ?_, ?_, ?_⟩
  · intro C m h
    simp only [apply_operation]
    rw [if_pos h]
  · exact apply_operation_pos_none
  · intro C m pos h1 h2 h3
    simp only [apply_operation]
    rw [if_neg (not_not_intro h1), h2]
    dsimp only
    rw [if_pos h3]
  · exact apply_operation_len_error
  · intro C m pos length hop h2 h3 h4 h5
    simp only [apply_operation]
    rw [hop]
    rw [if_neg (by decide), h2]
    dsimp only
    rw [if_neg h3]
    rw [if_neg (by decide)]
    rw [if_pos rfl, h4]
    dsimp only
    rw [if_pos h5]
  · intro C m pos length t hop h2 h3 h4 ht h5
    simp only [apply_operation]
    rw [hop]
    rw [if_neg (by decide), h2]
    dsimp only
    rw [if_neg h3]
    rw [if_neg (by decide)]
    rw [if_neg (by decide), h4]
    dsimp only
    rw [ht]
    dsimp only
    rw [if_pos h5]
  · intro C m pos hop h2 h3 hs
    simp only [apply_operation]
    rw [hop]
    rw [if_neg (by decide), h2]
    dsimp only
    rw [if_neg h3]
    rw [if_pos rfl]
    cases hv : m.text.getD (.str []) with
    | str s => rw [hv] at hs; simp [is_js_string] at hs
    | null => rfl
    | bool b => rfl
    | int n => rfl
  · intro C m pos length hop h2 h3 h4 hs
    simp only [apply_operation]
    rw [hop]
    rw [if_neg (by decide), h2]
    dsimp only
    rw [if_neg h3]
    rw [if_neg (by decide)]
    rw [if_neg (by decide), h4]
    dsimp only
    cases hv : m.text.getD (.str []) with
    | str s => rw [hv] at hs; simp [is_js_string] at hs
    | null => rfl
    | bool b => rfl
    | int n => rfl
  · intro C pos t h0 h1
    rw [apply_operation_insert_eval C pos t h0 h1]
  · intro C pos length h0 h2 h3
    rw [apply_operation_delete_eval C pos length h0 h2 h3]
  · intro C pos length t h0 h2 h3
    rw [apply_operation_replace_eval C pos length t h0 h2 h3]
  · exact apply_operation_fail_content

/-- C3 counterexample to the claim as stated: for a REPLACE whose range
overflows (`pos+len = 1 > 0 = |C|`) but whose `text` is not a string, the
code returns `INVALID_PAYLOAD`, not the `INVALID_RANGE` the claim's range
clause demands — the payload check precedes the range check. -/
theorem apply_operation_replace_payload_precedence_cex :
    ((0 : Int) + 1 > (([] : List Char).length : Int)) ∧
    coerce_length cmsg_replace_badtext.len = .ok 1 ∧
    apply_operation [] cmsg_replace_badtext =
      (false, [], none, "INVALID_PAYLOAD") ∧
    ("INVALID_PAYLOAD" : String) ≠ "INVALID_RANGE" :=
  ⟨by decide, by rfl, by decide, by decide⟩

/-- Concrete instances for `apply_operation_error_classification`: a bad op,
an out-of-range DELETE, and a boundary INSERT at `pos = |C|`. -/
theorem apply_operation_error_classification_witness :
    (msg_op { op := some (.str "MOVE".data) } ∉ VALID_EDIT_OPS ∧
      apply_operation "ab".data { op := some (.str "MOVE".data) } =
        (false, "ab".data, none, "INVALID_OP")) ∧
    apply_operation "ab".data (delete_msg 0 9) =
      (false, "ab".data, none, "INVALID_RANGE") ∧
    (apply_operation "ab".data (insert_msg 2 "X".data)).1 = true :=
  ⟨⟨by decide,
      (apply_operation_error_classification).1 "ab".data
        { op := some (.str "MOVE".data) } (by decide)⟩,
    (apply_operation_error_classification).2.2.2.2.1 "ab".data (delete_msg 0 9)
      0 9 (by decide) (by decide) (by decide) (by rfl) (by decide),
    (apply_operation_error_classification).2.2.2.2.2.2.2.2.1 "ab".data 2
      "X".data (by decide) (by decide)⟩

/-- C8 (amended): a `pos` or `len` value that is present but fails integer
coercion produces a validation error and is never defaulted to 0; a missing
`len` also produces a validation error, while a missing `pos` is defaulted
to 0 by the source (`message.get("pos", 0)`); a `base` that fails coercion
becomes the sentinel `-1`, which cannot equal a (non-negative) document
version, so the admission check deterministically fails with
`OUT_OF_DATE`. -/
theorem coercion_policy :
    (∀ (C : List Char) (m : Msg) (v : JVal), msg_op m ∈ VALID_EDIT_OPS →
      m.pos = some v → pyInt v = none →
      apply_operation C m = (false, C, none, "INVALID_RANGE")) ∧
    (∀ (C : List Char) (m : Msg) (pos : Int),
      (msg_op m = "DELETE".data ∨ msg_op m = "REPLACE".data) →
      pyInt (m.pos.getD (.int 0)) = some pos →
      ¬(pos < 0 ∨ pos > (C.length : Int)) →
      m.len = none →
      apply_operation C m = (false, C, none, "INVALID_RANGE")) ∧
    (∀ (C : List Char) (m : Msg) (pos : Int) (v : JVal),
      (msg_op m = "DELETE".data ∨ msg_op m = "REPLACE".data) →
      pyInt (m.pos.getD (.int 0)) = some pos →
      ¬(pos < 0 ∨ pos > (C.length : Int)) →
      m.len = some v → pyInt v = none →
      apply_operation C m = (false, C, none, "INVALID_RANGE")) ∧
    (∀ m : Msg, pyInt (m.base.getD .null) = none → coerce_base m = -1) ∧
    (∀ v : Int, 0 ≤ v → (-1 : Int) ≠ v) ∧
    (∀ (s : Session) (d : DocState) (m : Msg), s.hello_received = true →
      normalize_doc_id (m.docId.getD .null) = .ok d.id → 0 ≤ d.version →
      pyInt (m.base.getD .null) = none →
      handle_edit s d m =
        ⟨d, [], [.errorEv "OUT_OF_DATE"
          [("docId", .str d.id), ("serverVersion", .int d.version)]]⟩) := by
  refine ⟨?_, ?_, ?_, ?_, ?_, ?_⟩
  · intro C m v h1 hv hpy
    refine apply_operation_pos_none C m h1 ?_
    rw [hv, Option.getD_some, hpy]
  · intro C m pos hop h2 h3 hlen
    exact apply_operation_len_error C m pos _ hop h2 h3 (by rw [hlen]; rfl)
  · intro C m pos v hop h2 h3 hlen hpy
    refine apply_operation_len_error C m pos "int conversion failed".data hop
      h2 h3 ?_
    rw [hlen]
    simp only [coerce_length, hpy]
  · intro m h
    simp [coerce_base, h]
  · intro v hv
    omega
  · intro s d m hh hdoc hver hb
    have hbase : coerce_base m ≠ d.version := by
      simp only [coerce_base, hb, Option.getD_none]
      omega
    simp [handle_edit, edit_locked, hh, hdoc, hbase]

/-- C8 counterexample to the claim as stated: a missing `pos` is defaulted
to 0 (the INSERT succeeds at position 0) instead of producing a validation
error. -/
theorem missing_pos_defaults_zero_cex :
    cmsg_insert_no_pos.pos = none ∧
    apply_operation ['a', 'b'] cmsg_insert_no_pos =
      (true, ['X', 'a', 'b'], some (.INSERT 0 ['X']), "") :=
  ⟨rfl, by decide⟩

/-- Concrete instance for `coercion_policy`: a non-numeric `base` string is
coerced to `-1` and the edit is rejected `OUT_OF_DATE` at version 0. -/
theorem coercion_policy_witness :
    pyInt (wmsg_insert_badbase.base.getD .null) = none ∧
    coerce_base wmsg_insert_badbase = -1 ∧
    handle_edit ⟨"S-A", true⟩ (DocState.new "main".data) wmsg_insert_badbase =
      ⟨DocState.new "main".data, [],
        [.errorEv "OUT_OF_DATE"
          [("docId", .str "main".data), ("serverVersion", .int 0)]]⟩ :=
  ⟨by decide,
    (coercion_policy).2.2.2.1 wmsg_insert_badbase (by decide),
    (coercion_policy).2.2.2.2.2 ⟨"S-A", true⟩ (DocState.new "main".data)
      wmsg_insert_badbase (by rfl) (by rfl) (by decide) (by decide)⟩

theorem replay_spec_foldl_stopped (lines : List OplogLine) (c : List Char)
    (v : Int) : lines.foldl replay_spec_step (c, v, true) = (c, v, true) := by
  induction lines with
  | nil => rfl
  | cons l rest ih =>
    rw [List.foldl_cons]
    rw [show replay_spec_step (c, v, true) l = (c, v, true) from rfl]
    exact ih

theorem replay_go_eq_foldl (lines : List OplogLine) (c : List Char) (v : Int) :
    replay_go lines c v =
      ((lines.foldl replay_spec_step (c, v, false)).1,
       (lines.foldl replay_spec_step (c, v, false)).2.1) := by
  induction lines generalizing c v with
  | nil => rfl
  | cons l rest ih =>
    cases l with
    | blank =>
      rw [show replay_go (.blank :: rest) c v = replay_go rest c v from rfl]
      rw [List.foldl_cons]
      rw [show replay_spec_step (c, v, false) .blank = (c, v, false) from rfl]
      exact ih c v
    | badJson =>
      rw [show replay_go (.badJson :: rest) c v = replay_go rest c v from rfl]
      rw [List.foldl_cons]
      rw [show replay_spec_step (c, v, false) .badJson = (c, v, false) from rfl]
      exact ih c v
    | entry e =>
      rw [List.foldl_cons]
      by_cases hv : e.version ≤ v
      · rw [show replay_go (.entry e :: rest) c v = replay_go rest c v from by
          simp [replay_go, hv]]
        rw [show replay_spec_step (c, v, false) (.entry e) = (c, v, false) from by
          simp [replay_spec_step, hv]]
        exact ih c v
      · cases hp : e.patch with
        | none =>
          rw [show replay_go (.entry e :: rest) c v = replay_go rest c v from by
            simp [replay_go, hv, hp]]
          rw [show replay_spec_step (c, v, false) (.entry e) = (c, v, false) from by
            simp [replay_spec_step, hv, hp]]
          exact ih c v
        | some p =>
          cases happ : apply_patch_dict c p with
          | error err =>
            rw [show replay_go (.entry e :: rest) c v = (c, v) from by
              simp [replay_go, hv, hp, happ]]
            rw [show replay_spec_step (c, v, false) (.entry e) = (c, v, true) from by
              simp [replay_spec_step, hv, hp, happ]]
            rw [replay_spec_foldl_stopped]
          | ok c1 =>
            rw [show replay_go (.entry e :: rest) c v = replay_go rest c1 e.version
              from by simp [replay_go, hv, hp, happ]]
            rw [show replay_spec_step (c, v, false) (.entry e) =
              (c1, e.version, false) from by simp [replay_spec_step, hv, hp, happ]]
            exact ih c1 e.version

/-- C5 (amended): recovery starts from the snapshot `(content, version)` when
present and parsed, else `("", 0)`; it processes oplog lines in order,
skipping blanks, undecodable lines, entries whose version is ≤ the current
version, and entries whose `patch` field is not a JSON object (the latter
without advancing the version); every other entry's patch is applied and the
version advanced to the entry's version; the first patch-application failure
freezes the state — equivalently, recovery equals the fold of the
`replay_spec_step` recovery rule over the log. -/
theorem load_doc_content_matches_replay_spec
    (snapshot : Option (List Char × Int)) (oplog : Option (List OplogLine)) :
    load_doc_content snapshot oplog =
      replay_spec (snapshot.getD ([], 0)).1 (snapshot.getD ([], 0)).2 oplog := by
  cases oplog with
  | none => rfl
  | some lines =>
    simp only [load_doc_content, replay_oplog, replay_spec]
    exact replay_go_eq_foldl lines _ _

/-- C5 counterexample to the claim as stated: an entry at version 1 whose
`patch` is not an object is silently skipped (version not advanced, replay
not stopped), so a later entry still applies; the literal reading of the
claim (apply every newer entry's patch, stop at the first failure) instead
freezes at `("", 0)`. -/
theorem replay_nondict_patch_skip_cex :
    load_doc_content none (some [cline_nondict, cline_insert_a]) =
      (['a'], 2) ∧
    claim_replay_literal none (some [cline_nondict, cline_insert_a]) =
      ([], 0) ∧
    ((['a'], (2 : Int)) : List Char × Int) ≠ (([], 0) : List Char × Int) :=
  ⟨by decide, by decide, by decide⟩

theorem splitAtNl_eq_none {buf : List Nat} (h : (10 : Nat) ∉ buf) :
    splitAtNl buf = none := by
  induction buf with
  | nil => rfl
  | cons b bs ih =>
    have hb : ¬b = 10 := by
      intro e
      exact h (by simp [e])
    have hbs : (10 : Nat) ∉ bs := fun e => h (List.mem_cons_of_mem _ e)
    simp only [splitAtNl]
    rw [if_neg hb, ih hbs]
    rfl

theorem splitAtNl_some_structure {buf line rest : List Nat}
    (h : splitAtNl buf = some (line, rest)) :
    buf = line ++ 10 :: rest ∧ (10 : Nat) ∉ line := by
  induction buf generalizing line rest with
  | nil => simp [splitAtNl] at h
  | cons b bs ih =>
    simp only [splitAtNl] at h
    by_cases hb : b = 10
    · rw [if_pos hb] at h
      simp only [Option.some.injEq, Prod.mk.injEq] at h
      obtain ⟨h1, h2⟩ := h
      subst h1
      subst h2
      subst hb
      exact ⟨rfl, by simp⟩
    · rw [if_neg hb] at h
      cases h0 : splitAtNl bs with
      | none => rw [h0] at h; simp at h
      | some p =>
        obtain ⟨l0, r0⟩ := p
        rw [h0] at h
        simp only [Option.map, Option.some.injEq, Prod.mk.injEq] at h
        obtain ⟨h1, h2⟩ := h
        subst h1
        subst h2
        obtain ⟨hb1, hb2⟩ := ih h0
        refine ⟨by rw [List.cons_append, ← hb1], ?_⟩
        intro hm
        rcases List.mem_cons.mp hm with e | e
        · exact hb e.symm
        · exact hb2 e

theorem splitAtNl_append_some {u l r : List Nat}
    (h : splitAtNl u = some (l, r)) (v : List Nat) :
    splitAtNl (u ++ v) = some (l, r ++ v) := by
  induction u generalizing l r with
  | nil => simp [splitAtNl] at h
  | cons b bs ih =>
    rw [List.cons_append]
    simp only [splitAtNl] at h ⊢
    by_cases hb : b = 10
    · rw [if_pos hb] at h ⊢
      simp only [Option.some.injEq, Prod.mk.injEq] at h
      obtain ⟨h1, h2⟩ := h
      subst h1
      subst h2
      rfl
    · rw [if_neg hb] at h ⊢
      cases h0 : splitAtNl bs with
      | none => rw [h0] at h; simp at h
      | some p =>
        obtain ⟨l0, r0⟩ := p
        rw [h0] at h
        simp only [Option.map, Option.some.injEq, Prod.mk.injEq] at h
        obtain ⟨h1, h2⟩ := h
        subst h1
        subst h2
        rw [ih h0]
        rfl

theorem extractLines_none_eq {buf : List Nat} (h : splitAtNl buf = none) :
    extractLines buf = ([], buf) := by
  unfold extractLines
  split
  · rfl
  · next line rest heq => rw [h] at heq; cases heq

theorem extractLines_some_eq {buf line rest : List Nat}
    (h : splitAtNl buf = some (line, rest)) :
    extractLines buf =
      (if bstrip line = [] then (extractLines rest).1
       else bstrip line :: (extractLines rest).1,
       (extractLines rest).2) := by
  rw [extractLines.eq_def]
  split
  · next heq => rw [h] at heq; cases heq
  · next l2 r2 heq =>
    rw [h] at heq
    simp only [Option.some.injEq, Prod.mk.injEq] at heq
    obtain ⟨h1, h2⟩ := heq
    subst h1
    subst h2
    rfl

theorem splitAtNl_none_not_mem {buf : List Nat} (h : splitAtNl buf = none) :
    (10 : Nat) ∉ buf := by
  induction buf with
  | nil => simp
  | cons b bs ih =>
    simp only [splitAtNl] at h
    by_cases hb : b = 10
    · rw [if_pos hb] at h; cases h
    · rw [if_neg hb] at h
      have h2 : splitAtNl bs = none := by
        cases h0 : splitAtNl bs with
        | none => rfl
        | some p => rw [h0] at h; simp at h
      intro hm
      rcases List.mem_cons.mp hm with e | e
      · exact hb e.symm
      · exact ih h2 e

theorem takeWhile_append_stop {p : Nat → Bool} {a : Nat} (ha : p a = false)
    (xs ys : List Nat) : ((xs ++ a :: ys).takeWhile p) = xs.takeWhile p := by
  induction xs with
  | nil => simp [List.takeWhile_cons, ha]
  | cons x xs ih =>
    simp only [List.cons_append, List.takeWhile_cons]
    cases hx : p x <;> simp [hx, ih]

theorem takeWhile_all {p : Nat → Bool} (l : List Nat)
    (h : ∀ x ∈ l, p x = true) : l.takeWhile p = l := by
  induction l with
  | nil => rfl
  | cons x xs ih =>
    have hx := h x (by simp)
    have htail := ih (fun y hy => h y (by simp [hy]))
    simp [List.takeWhile_cons, hx, htail]

theorem takeWhile_mem {p : Nat → Bool} {l : List Nat} {x : Nat}
    (h : x ∈ l.takeWhile p) : p x = true := by
  induction l with
  | nil => simp [List.takeWhile] at h
  | cons y ys ih =>
    rw [List.takeWhile_cons] at h
    by_cases hy : p y = true
    · rw [if_pos hy] at h
      rcases List.mem_cons.mp h with e | e
      · rw [e]; exact hy
      · exact ih e
    · rw [if_neg hy] at h
      simp at h

theorem after_last_nl_no_nl (buf : List Nat) :
    (10 : Nat) ∉ after_last_nl buf := by
  intro hm
  unfold after_last_nl at hm
  rw [List.mem_reverse] at hm
  have := takeWhile_mem hm
  simp at this

theorem after_last_nl_of_no_nl {buf : List Nat} (h : (10 : Nat) ∉ buf) :
    after_last_nl buf = buf := by
  unfold after_last_nl
  rw [takeWhile_all _ (fun x hx => ?_), List.reverse_reverse]
  rw [List.mem_reverse] at hx
  simp only [decide_eq_true_eq]
  intro e
  subst e
  exact h hx

theorem after_last_nl_append_nl (l r : List Nat) :
    after_last_nl (l ++ 10 :: r) = after_last_nl r := by
  unfold after_last_nl
  have hrw : (l ++ 10 :: r).reverse = r.reverse ++ 10 :: l.reverse := by
    simp [List.reverse_append]
  rw [hrw, takeWhile_append_stop (by decide)]

theorem takeWhile_length_le (p : Nat → Bool) (l : List Nat) :
    (l.takeWhile p).length ≤ l.length := by
  induction l with
  | nil => simp
  | cons x xs ih =>
    rw [List.takeWhile_cons]
    cases hx : p x
    · simp
    · simpa using Nat.succ_le_succ ih

theorem after_last_nl_length_le (buf : List Nat) :
    (after_last_nl buf).length ≤ buf.length := by
  unfold after_last_nl
  rw [List.length_reverse]
  calc (buf.reverse.takeWhile _).length ≤ buf.reverse.length :=
        takeWhile_length_le _ _
    _ = buf.length := List.length_reverse buf

theorem extract_snd_aux : ∀ (n : Nat) (buf : List Nat), buf.length ≤ n →
    (extractLines buf).2 = after_last_nl buf := by
  intro n
  induction n with
  | zero =>
    intro buf hb
    have hnil : buf = [] := List.length_eq_zero.mp (Nat.le_zero.mp hb)
    subst hnil
    rw [extractLines_none_eq (show splitAtNl ([] : List Nat) = none from rfl)]
    rfl
  | succ n ih =>
    intro buf hb
    cases h : splitAtNl buf with
    | none =>
      rw [extractLines_none_eq h,
        after_last_nl_of_no_nl (splitAtNl_none_not_mem h)]
    | some pr =>
      obtain ⟨l, r⟩ := pr
      obtain ⟨hstruct, hlnl⟩ := splitAtNl_some_structure h
      have hr : r.length ≤ n := by
        have h1 := splitAtNl_some_length h
        omega
      rw [extractLines_some_eq h]
      rw [show ((if bstrip l = [] then (extractLines r).1
          else bstrip l :: (extractLines r).1,
          (extractLines r).2)).2 = (extractLines r).2 from rfl]
      rw [ih r hr, hstruct, after_last_nl_append_nl]

theorem extractLines_snd_eq (buf : List Nat) :
    (extractLines buf).2 = after_last_nl buf :=
  extract_snd_aux buf.length buf le_rfl

theorem extract_append_aux : ∀ (n : Nat) (u : List Nat), u.length ≤ n →
    ∀ (v : List Nat),
    extractLines (u ++ v) =
      ((extractLines u).1 ++ (extractLines ((extractLines u).2 ++ v)).1,
       (extractLines ((extractLines u).2 ++ v)).2) := by
  intro n
  induction n with
  | zero =>
    intro u hu v
    have hnil : u = [] := List.length_eq_zero.mp (Nat.le_zero.mp hu)
    subst hnil
    rw [extractLines_none_eq (show splitAtNl ([] : List Nat) = none from rfl)]
    simp
  | succ n ih =>
    intro u hu v
    cases h : splitAtNl u with
    | none =>
      rw [extractLines_none_eq h]
      simp
    | some pr =>
      obtain ⟨l, r⟩ := pr
      have hr : r.length ≤ n := by
        have h1 := splitAtNl_some_length h
        omega
      rw [extractLines_some_eq h, extractLines_some_eq (splitAtNl_append_some h v)]
      rw [ih r hr v]
      by_cases hs : bstrip l = [] <;> simp [hs]

theorem extract_append (u v : List Nat) :
    extractLines (u ++ v) =
      ((extractLines u).1 ++ (extractLines ((extractLines u).2 ++ v)).1,
       (extractLines ((extractLines u).2 ++ v)).2) :=
  extract_append_aux u.length u le_rfl v

/-- C9: framer guarantees.  (a) With no newline in the data and the size
within bounds, no record is emitted and the whole buffer is retained — a
record appears only after its terminating newline.  (b) After any successful
non-empty feed, the retained buffer is exactly the bytes after the last
newline (and contains none).  (c) Feeding `c1` then `c2` emits the same
records, in the same order, as feeding `c1 ++ c2` at once — records are
emitted in input order.  (d) A buffered line of exactly
`MAX_MESSAGE_BYTES` bytes with no newline is accepted.  (e) The feed call
that makes the buffer exceed `MAX_MESSAGE_BYTES` raises the oversize
protocol error. -/
theorem framer_feed_properties :
    (∀ (buffer chunk : List Nat), chunk ≠ [] →
      (buffer ++ chunk).length ≤ MAX_MESSAGE_BYTES →
      (10 : Nat) ∉ buffer ++ chunk →
      framer_feed buffer chunk = .ok ([], buffer ++ chunk)) ∧
    (∀ (buffer chunk : List Nat) (msgs : List (List Nat)) (rest : List Nat),
      chunk ≠ [] → framer_feed buffer chunk = .ok (msgs, rest) →
      rest = after_last_nl (buffer ++ chunk) ∧ (10 : Nat) ∉ rest) ∧
    (∀ (buffer c1 c2 : List Nat) (m1 m2 : List (List Nat)) (b1 b2 : List Nat),
      c1 ≠ [] →
      (buffer ++ c1 ++ c2).length ≤ MAX_MESSAGE_BYTES →
      framer_feed buffer c1 = .ok (m1, b1) →
      framer_feed b1 c2 = .ok (m2, b2) →
      framer_feed buffer (c1 ++ c2) = .ok (m1 ++ m2, b2)) ∧
    (∀ (buffer chunk : List Nat), chunk ≠ [] →
      (buffer ++ chunk).length = MAX_MESSAGE_BYTES →
      (10 : Nat) ∉ buffer ++ chunk →
      framer_feed buffer chunk = .ok ([], buffer ++ chunk)) ∧
    (∀ (buffer chunk : List Nat), chunk ≠ [] →
      (buffer ++ chunk).length > MAX_MESSAGE_BYTES →
      framer_feed buffer chunk = .error "message exceeds max size") := by
  have hA : ∀ (buffer chunk : List Nat), chunk ≠ [] →
      (buffer ++ chunk).length ≤ MAX_MESSAGE_BYTES →
      (10 : Nat) ∉ buffer ++ chunk →
      framer_feed buffer chunk = .ok ([], buffer ++ chunk) := by
    intro buffer chunk hc hlen hnl
    simp only [framer_feed]
    rw [if_neg hc, if_neg (by omega)]
    rw [extractLines_none_eq (splitAtNl_eq_none hnl)]
  refine ⟨hA, ?_, ?_, ?_, ?_⟩
  · intro buffer chunk msgs rest hc hfeed
    have hlen : (buffer ++ chunk).length ≤ MAX_MESSAGE_BYTES := by
      by_contra hgt
      rw [show framer_feed buffer chunk = .error "message exceeds max size" from by
        simp only [framer_feed]; rw [if_neg hc, if_pos (by omega)]] at hfeed
      cases hfeed
    rw [show framer_feed buffer chunk = .ok (extractLines (buffer ++ chunk)) from by
      simp only [framer_feed]; rw [if_neg hc, if_neg (by omega)]] at hfeed
    rw [Except.ok.injEq] at hfeed
    have hrest : (extractLines (buffer ++ chunk)).2 = rest := by rw [hfeed]
    constructor
    · rw [← hrest, extractLines_snd_eq]
    · rw [← hrest, extractLines_snd_eq]
      exact after_last_nl_no_nl _
  · intro buffer c1 c2 m1 m2 b1 b2 hc1 hlen h1 h2
    have hc12 : c1 ++ c2 ≠ [] := by
      intro e
      exact hc1 (List.append_eq_nil.mp e).1
    have hlen1 : (buffer ++ c1).length ≤ MAX_MESSAGE_BYTES := by
      rw [List.length_append] at hlen ⊢
      rw [List.length_append] at hlen
      omega
    have h1e : extractLines (buffer ++ c1) = (m1, b1) := by
      rw [show framer_feed buffer c1 = .ok (extractLines (buffer ++ c1)) from by
        simp only [framer_feed]; rw [if_neg hc1, if_neg (by omega)]] at h1
      rw [Except.ok.injEq] at h1
      exact h1
    have hb1 : (extractLines (buffer ++ c1)).2 = b1 := by rw [h1e]
    have hm1 : (extractLines (buffer ++ c1)).1 = m1 := by rw [h1e]
    have hb1len : b1.length ≤ (buffer ++ c1).length := by
      rw [← hb1, extractLines_snd_eq]
      exact after_last_nl_length_le _
    by_cases hc2 : c2 = []
    · subst hc2
      rw [show framer_feed b1 [] = .ok ([], b1) from by simp [framer_feed]] at h2
      rw [Except.ok.injEq, Prod.mk.injEq] at h2
      obtain ⟨hm2, hb2⟩ := h2
      rw [List.append_nil, ← hm2, List.append_nil, ← hb2]
      exact h1
    · have hlen2 : (b1 ++ c2).length ≤ MAX_MESSAGE_BYTES := by
        rw [List.length_append]
        rw [List.length_append, List.length_append] at hlen
        rw [List.length_append] at hb1len
        omega
      have h2e : extractLines (b1 ++ c2) = (m2, b2) := by
        rw [show framer_feed b1 c2 = .ok (extractLines (b1 ++ c2)) from by
          simp only [framer_feed]; rw [if_neg hc2, if_neg (by omega)]] at h2
        rw [Except.ok.injEq] at h2
        exact h2
      simp only [framer_feed]
      rw [if_neg hc12, if_neg (by
        rw [List.length_append, List.length_append]
        rw [List.length_append, List.length_append] at hlen
        omega)]
      rw [← List.append_assoc]
      rw [extract_append (buffer ++ c1) c2]
      rw [hm1, hb1, h2e]
  · intro buffer chunk hc hlen hnl
    exact hA buffer chunk hc (by omega) hnl
  · intro buffer chunk hc hlen
    simp only [framer_feed]
    rw [if_neg hc, if_pos (by omega)]

/-- Concrete instances for `framer_feed_properties`: a newline-free chunk is
buffered whole with no records, and an oversize chunk raises the protocol
error. -/
theorem framer_feed_properties_witness :
    framer_feed [] [65, 66] = .ok ([], [65, 66]) ∧
    framer_feed [] (List.replicate (MAX_MESSAGE_BYTES + 1) 65) =
      .error "message exceeds max size" :=
  ⟨(framer_feed_properties).1 [] [65, 66] (by decide)
      (by rw [show (([] ++ [65, 66] : List Nat)).length = 2 from rfl]
          rw [show MAX_MESSAGE_BYTES = 1000000 from rfl]
          omega)
      (by decide),
    (framer_feed_properties).2.2.2.2 [] (List.replicate (MAX_MESSAGE_BYTES + 1) 65)
      (by rw [List.replicate_succ]; exact List.cons_ne_nil _ _)
      (by simp only [List.nil_append, List.length_replicate]; omega)⟩

/-- C6 is violated by the source: `_handle_subscribe` adds the session to
`doc.subscribers` under the lock and only afterwards — outside the lock —
computes the snapshot payload (hub.py 165-168).  Part (i): in the handler's
step order the insertion precedes the snapshot computation, and the lock is
released before it.  Part (ii): in the resulting race a new subscriber whose
`DOC_SNAPSHOT` reads version 1 is also a target of the version-1 BROADCAST,
i.e. it can receive a broadcast with version ≤ its snapshot version. -/
theorem subscribe_insert_before_snapshot_bug :
    (handle_subscribe_steps.findIdx (fun s => s = .addSubscriber) <
      handle_subscribe_steps.findIdx (fun s => s = .computeSnapshotPayload)) ∧
    (handle_subscribe_steps.findIdx (fun s => s = .lockRelease) <
      handle_subscribe_steps.findIdx (fun s => s = .computeSnapshotPayload)) ∧
    race_snapshot.version = 1 ∧
    Event.broadcastEv "main".data 1 (.INSERT 0 "hi".data) "S-A" ∈
      race_edit.events ∧
    broadcast_targets race_edit.doc "S-A" = ["S-B"] ∧
    (1 : Int) ≤ race_snapshot.version :=
  ⟨by decide, by decide, by decide, by decide, by decide, by decide⟩
